import Mathlib

/-!
Verification of the financial label-mapping pipeline (financifyBackend).

The Python sources under financial_mapper/ are shallowly embedded here:
strings are Lean String/List Char, Python float values are modelled as
rationals extended with nan/inf markers, dictionaries are association
lists with Python insertion-order/overwrite semantics, and fallible code
returns Except/Option.  Each definition mirrors one Python function and
is named after it.
-/

namespace Financify

/-- Model of Python whitespace (str.strip and the regex class \s): the six
ASCII whitespace characters (space 32, tab 9, newline 10, carriage return
13, vertical tab 11, form feed 12) plus the common Unicode space code
points. -/
def pyIsSpace (c : Char) : Bool :=
  c.toNat = 32 || c.toNat = 9 || c.toNat = 10 || c.toNat = 13 ||
  c.toNat = 11 || c.toNat = 12 ||
  c.toNat = 0x85 || c.toNat = 0xa0 || c.toNat = 0x1680 ||
  (0x2000 ≤ c.toNat && c.toNat ≤ 0x200a) ||
  c.toNat = 0x2028 || c.toNat = 0x2029 || c.toNat = 0x202f ||
  c.toNat = 0x205f || c.toNat = 0x3000

/-- Model of Python str.lower restricted to ASCII letters: uppercase A-Z
(code points 65-90) map to a-z, every other character is unchanged.
(Python also lowercases non-ASCII letters; those are stripped later by the
punctuation filter in every use in this code base, so the restriction is
behaviour-preserving there.) -/
def pyLowerChar (c : Char) : Char :=
  if 65 ≤ c.toNat ∧ c.toNat ≤ 90 then Char.ofNat (c.toNat + 32) else c

/-- Drop leading characters satisfying the whitespace predicate, as the left
half of Python str.strip. -/
def stripLeading (l : List Char) : List Char :=
  l.dropWhile pyIsSpace

/-- Drop trailing whitespace, as the right half of Python str.strip. -/
def stripTrailing (l : List Char) : List Char :=
  (l.reverse.dropWhile pyIsSpace).reverse

/-- Model of Python str.strip with no argument. -/
def pyStrip (l : List Char) : List Char :=
  stripTrailing (stripLeading l)

/-- Model of Python str.replace for a three-character pattern replaced by a
single character, scanning left to right over non-overlapping occurrences.
normalizer.py line 61 replaces two three-character sequences: the file is
encoding-corrupted (mojibake), so the literal patterns are U+00E2 U+20AC
U+201C and U+00E2 U+20AC U+201D rather than the en/em dash the docstring
announces. -/
def replace3 (a b c r : Char) : List Char → List Char
  | x :: y :: z :: rest =>
    if x = a ∧ y = b ∧ z = c then r :: replace3 a b c r rest
    else x :: replace3 a b c r (y :: z :: rest)
  | l => l

/-- Characters kept by the label punctuation filter: the regex
_PUNCT_RE = [^a-z0-9\s\-&] removes everything outside this set
(normalizer.py line 36).  Ranges: a-z is 97-122, 0-9 is 48-57, hyphen 45,
ampersand 38. -/
def keepLabelChar (c : Char) : Bool :=
  (97 ≤ c.toNat && c.toNat ≤ 122) || (48 ≤ c.toNat && c.toNat ≤ 57) ||
  pyIsSpace c || c.toNat = 45 || c.toNat = 38

/-- Replace every maximal run of whitespace by a single ASCII space, the
effect of _MULTI_SPACE_RE.sub of a single space (normalizer.py line 64). -/
def squeezeWs : List Char → List Char
  | [] => []
  | [c] => if pyIsSpace c then [' '] else [c]
  | a :: b :: rest =>
    if pyIsSpace a ∧ pyIsSpace b then squeezeWs (b :: rest)
    else (if pyIsSpace a then ' ' else a) :: squeezeWs (b :: rest)

/-- First mojibake character U+00E2 of the corrupted dash literals in
normalizer.py line 61 (bytes c3 a2). -/
def mojA : Char := Char.ofNat 0xE2

/-- Second mojibake character U+20AC of the corrupted dash literals
(bytes e2 82 ac). -/
def mojEuro : Char := Char.ofNat 0x20AC

/-- Third character U+201C of the first corrupted dash literal. -/
def mojLQ : Char := Char.ofNat 0x201C

/-- Third character U+201D of the second corrupted dash literal. -/
def mojRQ : Char := Char.ofNat 0x201D

/-- Character-list core of LabelNormalizer.normalize_label
(normalizer.py lines 45-67): strip, lowercase, replace the two (mojibake)
dash sequences by an ASCII hyphen, drop punctuation outside
[a-z0-9\s\-&], collapse whitespace runs to single spaces and strip. -/
def normalizeLabelChars (l : List Char) : List Char :=
  stripTrailing (stripLeading (squeezeWs (List.filter keepLabelChar
    (replace3 mojA mojEuro mojRQ '-'
      (replace3 mojA mojEuro mojLQ '-'
        (List.map pyLowerChar (pyStrip l)))))))

/-- Model of LabelNormalizer.normalize_label on String. -/
def normalizeLabel (s : String) : String :=
  String.mk (normalizeLabelChars s.data)

/-- Model of a Python float value: a finite rational, or one of the
non-finite IEEE values nan, +inf, -inf.  The finite values appearing in
this code base (decimal literals of financial data) are exactly
representable, so the rational model is exact on them. -/
inductive PyNum where
  | fin (q : ℚ)
  | nan
  | inf
  | ninf
deriving DecidableEq, Repr

/-- Model of a Python value flowing through the pipeline (the Any type):
None, int, float, str, or an object of some other type (identified by its
type name, as used in the f-string diagnostics). -/
inductive PyVal where
  | none
  | int (n : ℤ)
  | float (x : PyNum)
  | str (s : String)
  | other (typeName : String)
deriving DecidableEq, Repr

/-- Decimal digit test, code points 48-57. -/
def isDigitChar (c : Char) : Bool :=
  48 ≤ c.toNat && c.toNat ≤ 57

/-- Numeric value of a list of decimal digits, most significant first. -/
def digitsToNat (ds : List Char) : ℕ :=
  ds.foldl (fun a c => a * 10 + (c.toNat - 48)) 0

/-- Exponent part of a Python float literal, after the e/E: an optional
sign followed by at least one digit. -/
def parseExpPart (l : List Char) : Option ℤ :=
  match l with
  | '+' :: t => if t ≠ [] ∧ t.all isDigitChar then some (digitsToNat t) else Option.none
  | '-' :: t => if t ≠ [] ∧ t.all isDigitChar then some (-(digitsToNat t : ℤ)) else Option.none
  | t => if t ≠ [] ∧ t.all isDigitChar then some (digitsToNat t) else Option.none

/-- Mantissa of a Python float literal: digits with at most one decimal
point and at least one digit overall. -/
def parseMantissa (l : List Char) : Option ℚ :=
  let ip := l.takeWhile isDigitChar
  let rest := l.dropWhile isDigitChar
  match rest with
  | [] => if ip ≠ [] then some (digitsToNat ip : ℚ) else Option.none
  | '.' :: rest2 =>
    let fp := rest2.takeWhile isDigitChar
    let rest3 := rest2.dropWhile isDigitChar
    if rest3 = [] ∧ (ip ≠ [] ∨ fp ≠ []) then
      some ((digitsToNat ip : ℚ) + (digitsToNat fp : ℚ) / ((10 : ℚ) ^ fp.length))
    else Option.none
  | _ => Option.none

/-- Unsigned body of a Python float literal: mantissa with an optional
e/E exponent, or the words inf/infinity/nan (case-insensitive). -/
def pyFloatBody (t : List Char) (neg : Bool) : Option PyNum :=
  let low := t.map pyLowerChar
  if low = [ 'i', 'n', 'f' ] ∨ low = [ 'i', 'n', 'f', 'i', 'n', 'i', 't', 'y' ] then
    some (if neg then PyNum.ninf else PyNum.inf)
  else if low = [ 'n', 'a', 'n' ] then some PyNum.nan
  else
    let mant := t.takeWhile (fun c => c ≠ 'e' ∧ c ≠ 'E')
    let rest := t.dropWhile (fun c => c ≠ 'e' ∧ c ≠ 'E')
    match rest with
    | [] =>
      match parseMantissa mant with
      | some q => some (PyNum.fin (if neg then -q else q))
      | Option.none => Option.none
    | _ :: etail =>
      match parseMantissa mant, parseExpPart etail with
      | some q, some e => some (PyNum.fin (if neg then -(q * (10 : ℚ) ^ e) else q * (10 : ℚ) ^ e))
      | _, _ => Option.none

/-- Model of the Python float() constructor on a character list: strips
whitespace, handles an optional sign, then accepts inf/infinity/nan or a
decimal literal with optional fraction and exponent.  (Underscore digit
separators, which no input of this code base uses, are not modelled.) -/
def pyFloatOfChars (l0 : List Char) : Option PyNum :=
  match pyStrip l0 with
  | '+' :: t => pyFloatBody t false
  | '-' :: t => pyFloatBody t true
  | t => pyFloatBody t false

/-- Model of Python repr for the strings interpolated with !r into the
warning messages.  Escaping is not modelled: no input of this code base
contains quotes or backslashes. -/
def pyReprStr (s : String) : String :=
  "'" ++ s ++ "'"

/-- Character class of the corrupted _CURRENCY_RE in normalizer.py line
30.  The file is mojibake: the intended class ₹$€£¥ was double-encoded,
so the literal bytes decode to the characters U+00E2, U+201A, U+0105, $,
U+00AC, U+00C2, U+0141, U+0104.  In particular the real rupee sign U+20B9
is NOT in the class. -/
def isCorruptCurrencyChar (c : Char) : Bool :=
  c.toNat = 0xE2 || c.toNat = 0x201A || c.toNat = 0x105 || c.toNat = 0x24 ||
  c.toNat = 0xAC || c.toNat = 0xC2 || c.toNat = 0x141 || c.toNat = 0x104

/-- Parenthetical-negative rewrite of _PAREN_NEG_RE (pattern ^\((.+)\)$):
a string wrapped in parentheses with a non-empty newline-free interior
becomes a leading minus sign plus the interior. -/
def parenNeg (l : List Char) : List Char :=
  if 3 ≤ l.length ∧ l.head? = some '(' ∧ l.getLast? = some ')' ∧
      '\n' ∉ (l.drop 1).dropLast then
    '-' :: (l.drop 1).dropLast
  else l

/-- Percent-suffix handling of normalize_value lines 114-116: a trailing
percent sign is stripped (with re-strip) and a warning emitted; the value
is NOT divided by 100. -/
def percentStrip (l : List Char) : List Char × List String :=
  if l.getLast? = some '%' then
    (pyStrip l.dropLast, ["Percent symbol stripped; raw value treated as number"])
  else (l, [])

/-- String branch of LabelNormalizer.normalize_value (normalizer.py lines
97-125): strip, remove (corrupted) currency characters and re-strip,
parenthetical negative, remove commas, strip a trailing percent, then
float().  Parse failure appends the cannot-parse warning with the repr of
the original raw string. -/
def normalizeValueStr (s : String) : Option PyNum × List String :=
  let text1 := pyStrip s.data
  if text1 = [] then (Option.none, ["Value is empty string"])
  else
    let text2 := pyStrip (text1.filter (fun c => !isCorruptCurrencyChar c))
    let text3 := parenNeg text2
    let text4 := text3.filter (fun c => c ≠ ',')
    let t5 := percentStrip text4
    match pyFloatOfChars t5.1 with
    | some v => (some v, t5.2)
    | Option.none => (Option.none, t5.2 ++ ["Cannot parse numeric value from: " ++ pyReprStr s])

/-- Model of LabelNormalizer.normalize_value (normalizer.py lines 69-125):
None yields a warning, int/float pass through, non-str non-numeric types
warn, and strings go through the parsing chain. -/
def normalizeValue : PyVal → Option PyNum × List String
  | PyVal.none => (Option.none, ["Value is None"])
  | PyVal.int n => (some (PyNum.fin (n : ℚ)), [])
  | PyVal.float x => (some x, [])
  | PyVal.str s => normalizeValueStr s
  | PyVal.other t => (Option.none, ["Unexpected value type: " ++ t])

/-- Values of the CanonicalField enumeration (schema.py lines 27-78), in
declaration order. -/
def CANONICAL_FIELDS : List String := [
  "Current Assets",
  "Current Liabilities",
  "Long-term Borrowings",
  "Long-term Provisions",
  "Share Capital",
  "Reserves & Surplus",
  "Gross Profit",
  "Indirect Expenses",
  "Cash Sales",
  "Credit Sales",
  "Other Operating Income",
  "Operating Expenses",
  "Cash Accruals",
  "Loan Installment",
  "Interest",
  "Opening Inventory",
  "Closing Inventory",
  "Net Purchases",
  "Direct Expenses",
  "Opening Debtors",
  "Closing Debtors",
  "Net Sales",
  "Long-term Liabilities",
  "Intangible Assets",
  "Fixed Cost",
  "Selling Price",
  "Variable Cost",
  "Net Profit",
  "Net Worth",
  "Total Assets",
  "Total Liabilities",
  "EBITDA",
  "Depreciation",
  "Tax",
  "Revenue",
  "Total Debt",
  "Equity",
  "Working Capital",
  "Tangible Assets",
  "Fixed Assets",
  "Inventory",
  "Trade Receivables",
  "Trade Payables",
  "Cash and Cash Equivalents",
  "Total Income",
  "Total Expenses",
  "Net Revenue",
  "Cost of Goods Sold",
  "Operating Profit",
  "Profit Before Tax"
]

/-- Literal entries of the _BUILTIN_SYNONYMS dictionary
(synonym_mapper.py lines 37-343) in source order.  The Python dict
literal repeats the key "sales" (lines 183 and 330, both mapping to
"Net Sales"); the list keeps both occurrences and the dictionary build
below applies the last-wins semantics of a Python dict literal via
pyDictInsert. -/
def BUILTIN_SYNONYMS : List (String × String) := [
  ("current assets", "Current Assets"),
  ("total current assets", "Current Assets"),
  ("current assets total", "Current Assets"),
  ("ca", "Current Assets"),
  ("net current assets", "Current Assets"),
  ("current liabilities", "Current Liabilities"),
  ("total current liabilities", "Current Liabilities"),
  ("current liabilities total", "Current Liabilities"),
  ("cl", "Current Liabilities"),
  ("current liabilities & provisions", "Current Liabilities"),
  ("current liabilities and provisions", "Current Liabilities"),
  ("long-term borrowings", "Long-term Borrowings"),
  ("long term borrowings", "Long-term Borrowings"),
  ("lt borrowings", "Long-term Borrowings"),
  ("long term loans", "Long-term Borrowings"),
  ("long-term loans", "Long-term Borrowings"),
  ("term loans", "Long-term Borrowings"),
  ("secured loans", "Long-term Borrowings"),
  ("unsecured loans", "Long-term Borrowings"),
  ("borrowings non-current", "Long-term Borrowings"),
  ("non-current borrowings", "Long-term Borrowings"),
  ("long-term provisions", "Long-term Provisions"),
  ("long term provisions", "Long-term Provisions"),
  ("lt provisions", "Long-term Provisions"),
  ("non-current provisions", "Long-term Provisions"),
  ("provisions non-current", "Long-term Provisions"),
  ("share capital", "Share Capital"),
  ("equity share capital", "Share Capital"),
  ("paid-up capital", "Share Capital"),
  ("paid up capital", "Share Capital"),
  ("issued capital", "Share Capital"),
  ("authorized capital", "Share Capital"),
  ("authorised capital", "Share Capital"),
  ("share capital & premium", "Share Capital"),
  ("reserves & surplus", "Reserves & Surplus"),
  ("reserves and surplus", "Reserves & Surplus"),
  ("reserves", "Reserves & Surplus"),
  ("surplus", "Reserves & Surplus"),
  ("retained earnings", "Reserves & Surplus"),
  ("other reserves", "Reserves & Surplus"),
  ("general reserve", "Reserves & Surplus"),
  ("profit & loss account", "Reserves & Surplus"),
  ("profit and loss account", "Reserves & Surplus"),
  ("accumulated profits", "Reserves & Surplus"),
  ("gross profit", "Gross Profit"),
  ("gp", "Gross Profit"),
  ("gross margin", "Gross Profit"),
  ("gross income", "Gross Profit"),
  ("indirect expenses", "Indirect Expenses"),
  ("indirect costs", "Indirect Expenses"),
  ("overhead expenses", "Indirect Expenses"),
  ("overheads", "Indirect Expenses"),
  ("administrative expenses", "Indirect Expenses"),
  ("admin expenses", "Indirect Expenses"),
  ("cash sales", "Cash Sales"),
  ("cash revenue", "Cash Sales"),
  ("credit sales", "Credit Sales"),
  ("credit revenue", "Credit Sales"),
  ("sales on credit", "Credit Sales"),
  ("other operating income", "Other Operating Income"),
  ("other income", "Other Operating Income"),
  ("non-operating income", "Other Operating Income"),
  ("miscellaneous income", "Other Operating Income"),
  ("operating expenses", "Operating Expenses"),
  ("opex", "Operating Expenses"),
  ("operational expenses", "Operating Expenses"),
  ("cash accruals", "Cash Accruals"),
  ("cash accrual", "Cash Accruals"),
  ("net cash accruals", "Cash Accruals"),
  ("loan installment", "Loan Installment"),
  ("loan instalment", "Loan Installment"),
  ("emi", "Loan Installment"),
  ("loan repayment", "Loan Installment"),
  ("debt repayment", "Loan Installment"),
  ("interest", "Interest"),
  ("interest expense", "Interest"),
  ("interest cost", "Interest"),
  ("finance cost", "Interest"),
  ("finance costs", "Interest"),
  ("interest paid", "Interest"),
  ("interest on borrowings", "Interest"),
  ("opening inventory", "Opening Inventory"),
  ("opening stock", "Opening Inventory"),
  ("beginning inventory", "Opening Inventory"),
  ("inventory at beginning", "Opening Inventory"),
  ("closing inventory", "Closing Inventory"),
  ("closing stock", "Closing Inventory"),
  ("ending inventory", "Closing Inventory"),
  ("inventory at end", "Closing Inventory"),
  ("net purchases", "Net Purchases"),
  ("purchases", "Net Purchases"),
  ("total purchases", "Net Purchases"),
  ("direct expenses", "Direct Expenses"),
  ("direct costs", "Direct Expenses"),
  ("manufacturing expenses", "Direct Expenses"),
  ("production expenses", "Direct Expenses"),
  ("factory expenses", "Direct Expenses"),
  ("opening debtors", "Opening Debtors"),
  ("opening trade receivables", "Opening Debtors"),
  ("debtors at beginning", "Opening Debtors"),
  ("closing debtors", "Closing Debtors"),
  ("closing trade receivables", "Closing Debtors"),
  ("debtors at end", "Closing Debtors"),
  ("net sales", "Net Sales"),
  ("total sales", "Net Sales"),
  ("sales", "Net Sales"),
  ("turnover", "Net Sales"),
  ("net turnover", "Net Sales"),
  ("total turnover", "Net Sales"),
  ("revenue from operations", "Net Sales"),
  ("long-term liabilities", "Long-term Liabilities"),
  ("long term liabilities", "Long-term Liabilities"),
  ("non-current liabilities", "Long-term Liabilities"),
  ("total non-current liabilities", "Long-term Liabilities"),
  ("intangible assets", "Intangible Assets"),
  ("goodwill", "Intangible Assets"),
  ("patents", "Intangible Assets"),
  ("trademarks", "Intangible Assets"),
  ("intangibles", "Intangible Assets"),
  ("fixed cost", "Fixed Cost"),
  ("fixed costs", "Fixed Cost"),
  ("fixed expenses", "Fixed Cost"),
  ("selling price", "Selling Price"),
  ("sale price", "Selling Price"),
  ("sp", "Selling Price"),
  ("variable cost", "Variable Cost"),
  ("variable costs", "Variable Cost"),
  ("variable expenses", "Variable Cost"),
  ("net profit", "Net Profit"),
  ("profit after tax", "Net Profit"),
  ("pat", "Net Profit"),
  ("net income", "Net Profit"),
  ("bottom line", "Net Profit"),
  ("profit for the year", "Net Profit"),
  ("profit for the period", "Net Profit"),
  ("net worth", "Net Worth"),
  ("networth", "Net Worth"),
  ("owner funds", "Net Worth"),
  ("owners funds", "Net Worth"),
  ("shareholders funds", "Net Worth"),
  ("shareholders equity", "Net Worth"),
  ("stockholders equity", "Net Worth"),
  ("total equity", "Net Worth"),
  ("total assets", "Total Assets"),
  ("total asset", "Total Assets"),
  ("total liabilities", "Total Liabilities"),
  ("total liability", "Total Liabilities"),
  ("ebitda", "EBITDA"),
  ("operating profit before depreciation", "EBITDA"),
  ("earnings before interest tax depreciation & amortization", "EBITDA"),
  ("depreciation", "Depreciation"),
  ("depreciation & amortization", "Depreciation"),
  ("depreciation and amortisation", "Depreciation"),
  ("dep", "Depreciation"),
  ("tax", "Tax"),
  ("income tax", "Tax"),
  ("provision for tax", "Tax"),
  ("tax expense", "Tax"),
  ("taxation", "Tax"),
  ("revenue", "Revenue"),
  ("total revenue", "Revenue"),
  ("gross revenue", "Revenue"),
  ("income from operations", "Revenue"),
  ("total debt", "Total Debt"),
  ("total borrowings", "Total Debt"),
  ("debt", "Total Debt"),
  ("equity", "Equity"),
  ("owner equity", "Equity"),
  ("equity capital", "Equity"),
  ("working capital", "Working Capital"),
  ("net working capital", "Working Capital"),
  ("tangible assets", "Tangible Assets"),
  ("net tangible assets", "Tangible Assets"),
  ("property plant & equipment", "Tangible Assets"),
  ("property plant and equipment", "Tangible Assets"),
  ("ppe", "Tangible Assets"),
  ("fixed assets", "Fixed Assets"),
  ("non-current assets", "Fixed Assets"),
  ("total fixed assets", "Fixed Assets"),
  ("net fixed assets", "Fixed Assets"),
  ("net block", "Fixed Assets"),
  ("gross block", "Fixed Assets"),
  ("inventory", "Inventory"),
  ("inventories", "Inventory"),
  ("stock", "Inventory"),
  ("stocks", "Inventory"),
  ("trade receivables", "Trade Receivables"),
  ("sundry debtors", "Trade Receivables"),
  ("accounts receivable", "Trade Receivables"),
  ("debtors", "Trade Receivables"),
  ("trade payables", "Trade Payables"),
  ("sundry creditors", "Trade Payables"),
  ("accounts payable", "Trade Payables"),
  ("creditors", "Trade Payables"),
  ("cash and cash equivalents", "Cash and Cash Equivalents"),
  ("cash & cash equivalents", "Cash and Cash Equivalents"),
  ("cash and bank balances", "Cash and Cash Equivalents"),
  ("cash & bank balances", "Cash and Cash Equivalents"),
  ("cash", "Cash and Cash Equivalents"),
  ("bank balance", "Cash and Cash Equivalents"),
  ("total income", "Total Income"),
  ("total expenses", "Total Expenses"),
  ("total expenditure", "Total Expenses"),
  ("net revenue", "Net Revenue"),
  ("cost of goods sold", "Cost of Goods Sold"),
  ("cogs", "Cost of Goods Sold"),
  ("cost of sales", "Cost of Goods Sold"),
  ("cost of revenue", "Cost of Goods Sold"),
  ("operating profit", "Operating Profit"),
  ("ebit", "Operating Profit"),
  ("earnings before interest and tax", "Operating Profit"),
  ("operating income", "Operating Profit"),
  ("profit before tax", "Profit Before Tax"),
  ("pbt", "Profit Before Tax"),
  ("earnings before tax", "Profit Before Tax"),
  ("income before tax", "Profit Before Tax"),
  ("assets", "Total Assets"),
  ("total assets (ta)", "Total Assets"),
  ("liabilities", "Total Liabilities"),
  ("total liabilities (tl)", "Total Liabilities"),
  ("borrowings", "Total Debt"),
  ("earnings", "Net Profit"),
  ("eat", "Net Profit"),
  ("sales", "Net Sales"),
  ("sale", "Net Sales"),
  ("sales revenue", "Net Sales"),
  ("revenue from sales", "Net Sales"),
  ("earnings from operations", "Operating Profit"),
  ("short term borrowings", "Current Liabilities"),
  ("st borrowings", "Current Liabilities"),
  ("long form liabilities", "Long-term Liabilities"),
  ("nd", "Long-term Borrowings"),
  ("current borrowings", "Short-term Borrowings"),
  ("floating cash", "Cash and Cash Equivalents"),
  ("bank", "Cash and Cash Equivalents"),
  ("cash balance", "Cash and Cash Equivalents")
]

/-- Model of Python dict insertion d[k] = v: an existing key keeps its
position and gets the new value, a new key is appended. -/
def pyDictInsert (d : List (String × String)) (k v : String) : List (String × String) :=
  if d.any (fun p => p.1 = k) then d.map (fun p => if p.1 = k then (p.1, v) else p)
  else d ++ [(k, v)]

/-- Model of Python dict.get: value of the (unique) binding of k, if any. -/
def pyDictGet (d : List (String × String)) (k : String) : Option String :=
  (d.find? (fun p => p.1 = k)).map (fun p => p.2)

/-- Dictionary built by SynonymMapper.__init__ with no extra synonyms
(synonym_mapper.py lines 361-372): every built-in variant key is passed
through normalize_label again and inserted in source order. -/
def builtinSynonymDict : List (String × String) :=
  BUILTIN_SYNONYMS.foldl (fun d p => pyDictInsert d (normalizeLabel p.1) p.2) []

/-- Model of SynonymMapper.lookup (synonym_mapper.py lines 381-399): a
plain dictionary get on the normalised label.  The dictionary to consult
is passed explicitly (the mapper object holds it in self._dict). -/
def synonymLookup (d : List (String × String)) (normalised_label : String) : Option String :=
  pyDictGet d normalised_label

/-- Model of schema.canonical_lookup (schema.py lines 85-91):
case-insensitive scan of the CanonicalField values against the stripped,
lowercased name, returning the properly-cased value of the first hit. -/
def canonicalLookup (name : String) : Option String :=
  CANONICAL_FIELDS.find? (fun v => v.data.map pyLowerChar = (pyStrip name.data).map pyLowerChar)

/-- Model of SynonymMapper.add_synonym (synonym_mapper.py lines 405-431):
a canonical name that is not literally a CanonicalField value is retried
through canonical_lookup; only if that also fails is ValueError raised.
The variant is normalised before insertion and an existing binding is
overwritten (logged, not rejected). -/
def addSynonym (d : List (String × String)) (variant canonical : String) :
    Except String (List (String × String)) :=
  if canonical ∈ CANONICAL_FIELDS then
    Except.ok (pyDictInsert d (normalizeLabel variant) canonical)
  else
    match canonicalLookup canonical with
    | Option.none =>
      Except.error ("Unknown canonical name " ++ pyReprStr canonical ++
        ". Must be one of the CanonicalField values.")
    | Option.some cf => Except.ok (pyDictInsert d (normalizeLabel variant) cf)


/-- Matching thresholds of config.MatchingConfig (config.py lines 16-32),
with scores on the rapidfuzz 0-100 scale. -/
structure MatchingConfig where
  fuzzy_threshold : ℚ
  fuzzy_ambiguity_delta : ℚ
  semantic_threshold : ℚ
  strict_mode : Bool
deriving DecidableEq, Repr

/-- Default MatchingConfig values (config.py lines 21-32). -/
def defaultMatchingConfig : MatchingConfig :=
  ⟨80, 5, 85 / 100, false⟩

/-- Candidate returned by the fuzzy matcher (fuzzy_matcher.py lines 27-33). -/
structure FuzzyCandidate where
  canonical_name : String
  score : ℚ
  is_ambiguous : Bool
deriving DecidableEq, Repr

/-- Descending-score order on scored keys, the order in which rapidfuzz
process.extract returns its results. -/
def scoreGE (p q : String × ℚ) : Prop :=
  q.2 ≤ p.2

instance : DecidableRel scoreGE :=
  fun p q => inferInstanceAs (Decidable (q.2 ≤ p.2))

instance : IsTotal (String × ℚ) scoreGE :=
  ⟨fun p q => (le_total q.2 p.2).imp id id⟩

instance : IsTrans (String × ℚ) scoreGE :=
  ⟨fun _ _ _ h1 h2 => le_trans h2 h1⟩

/-- Target pool built by FuzzyMatcher.__init__ (fuzzy_matcher.py lines
59-68): lowercased canonical names mapping to their originals, with any
extra targets inserted afterwards, Python-dict overwrite semantics. -/
def mkFuzzyTargets (canon extra : List String) : List (String × String) :=
  let base := canon.foldl (fun d n => pyDictInsert d (String.mk (n.data.map pyLowerChar)) n) []
  extra.foldl (fun d t => pyDictInsert d (String.mk (t.data.map pyLowerChar)) t) base

/-- Model of rapidfuzz process.extract: every pool key scored against the
query, sorted by score descending (stable in pool order), truncated to
the requested limit. -/
def processExtract (keys : List String) (score : String → String → ℚ)
    (query : String) (limit : ℕ) : List (String × ℚ) :=
  (List.insertionSort scoreGE (keys.map (fun k => (k, score query k)))).take limit

/-- Model of FuzzyMatcher.match (fuzzy_matcher.py lines 74-141),
parameterised by the target pool and the scorer (rapidfuzz
fuzz.token_sort_ratio in the source — an external library function).  An
empty label is rejected up front; the best of the top five candidates is
rejected below the threshold; a runner-up within the ambiguity delta
flags the result ambiguous. -/
def fuzzyMatch (cfg : MatchingConfig) (targets : List (String × String))
    (score : String → String → ℚ) (normalised_label : String) : Option FuzzyCandidate :=
  if normalised_label = "" then Option.none
  else
    match processExtract (targets.map (fun p => p.1)) score normalised_label 5 with
    | [] => Option.none
    | (best_key, best_score) :: rest =>
      if best_score < cfg.fuzzy_threshold then Option.none
      else
        let is_ambiguous :=
          match rest with
          | [] => false
          | (_, second_score) :: _ => decide (best_score - second_score ≤ cfg.fuzzy_ambiguity_delta)
        some ⟨(pyDictGet targets best_key).getD best_key, best_score, is_ambiguous⟩


/-- Validation knobs of config.ValidationConfig (config.py lines 35-47). -/
structure ValidationConfig where
  required_fields : List String
  max_absolute_value : ℚ
  error_on_duplicate : Bool
deriving DecidableEq, Repr

/-- Default ValidationConfig values (config.py lines 41-47):
no required fields, max 1e15, duplicates are errors. -/
def defaultValidationConfig : ValidationConfig :=
  ⟨[], 10 ^ 15, true⟩

/-- Mapping record produced by the pipeline (schema.py lines 98-107). -/
structure MappingResult where
  canonical_name : String
  raw_label : String
  value : PyVal
  confidence : ℚ
  match_method : String
  warnings : List String
deriving DecidableEq, Repr

/-- Error/warning accumulator of validator.ValidationReport
(validator.py lines 28-45). -/
structure ValidationReport where
  errors : List String
  warnings : List String
deriving DecidableEq, Repr

/-- Model of ValidationReport.add_error: append. -/
def ValidationReport.addError (r : ValidationReport) (msg : String) : ValidationReport :=
  ⟨r.errors ++ [msg], r.warnings⟩

/-- Model of ValidationReport.add_warning: append. -/
def ValidationReport.addWarning (r : ValidationReport) (msg : String) : ValidationReport :=
  ⟨r.errors, r.warnings ++ [msg]⟩

/-- Duplicate-mapping message of Validator._check_duplicates. -/
def dupMsg (canonical first again : String) : String :=
  "Duplicate canonical mapping '" ++ canonical ++ "': first from '" ++ first ++
    "', again from '" ++ again ++ "'"

/-- Loop body of Validator._check_duplicates (validator.py lines 72-89),
threading the seen map (canonical name to first raw label) and report. -/
def checkDuplicatesGo (cfg : ValidationConfig) :
    List MappingResult → List (String × String) → ValidationReport → ValidationReport
  | [], _, r => r
  | m :: rest, seen, r =>
    match pyDictGet seen m.canonical_name with
    | some first =>
      let msg := dupMsg m.canonical_name first m.raw_label
      let r2 := if cfg.error_on_duplicate then r.addError msg else r.addWarning msg
      checkDuplicatesGo cfg rest seen r2
    | Option.none =>
      checkDuplicatesGo cfg rest (pyDictInsert seen m.canonical_name m.raw_label) r

/-- Model of Validator._check_duplicates. -/
def checkDuplicates (cfg : ValidationConfig) (ms : List MappingResult)
    (r : ValidationReport) : ValidationReport :=
  checkDuplicatesGo cfg ms [] r

/-- Model of Validator._check_required_fields (validator.py lines 91-101):
disabled by an empty required list, otherwise one error per required
canonical name absent from the mapped set. -/
def checkRequiredFields (cfg : ValidationConfig) (ms : List MappingResult)
    (r : ValidationReport) : ValidationReport :=
  if cfg.required_fields = [] then r
  else
    cfg.required_fields.foldl
      (fun acc req =>
        if ms.any (fun m => m.canonical_name = req) then acc
        else acc.addError ("Required field missing: '" ++ req ++ "'"))
      r

/-- Best-effort model of Python str() on a float for interpolated
diagnostics; the exact rendering is immaterial to every theorem below
(no claim constrains a message that embeds a finite float). -/
def pyNumStr : PyNum → String
  | PyNum.fin q => if q.den = 1 then toString q.num ++ ".0" else toString q
  | PyNum.nan => "nan"
  | PyNum.inf => "inf"
  | PyNum.ninf => "-inf"

/-- Model of Python str() on a pipeline value. -/
def pyValStr : PyVal → String
  | PyVal.none => "None"
  | PyVal.int n => toString n
  | PyVal.float x => pyNumStr x
  | PyVal.str s => s
  | PyVal.other t => "<" ++ t ++ " object>"

/-- Model of Python repr() on a pipeline value, used by the non-numeric
warning f-string. -/
def pyValRepr : PyVal → String
  | PyVal.str s => pyReprStr s
  | v => pyValStr v

/-- Non-finite-value error message of Validator._check_values line 122. -/
def nonFiniteMsg (m : MappingResult) : String :=
  "'" ++ m.canonical_name ++ "' has non-finite value: " ++ pyValStr m.value

/-- Per-mapping body of Validator._check_values (validator.py lines
103-131): None warns, non-numeric warns, NaN/inf errors, and a finite
value beyond max_absolute_value warns. -/
def checkValueOne (cfg : ValidationConfig) (r : ValidationReport)
    (m : MappingResult) : ValidationReport :=
  match m.value with
  | PyVal.none =>
    r.addWarning ("'" ++ m.canonical_name ++ "' (from '" ++ m.raw_label ++ "') has value None")
  | PyVal.str _ =>
    r.addWarning ("'" ++ m.canonical_name ++ "' has non-numeric value: " ++ pyValRepr m.value)
  | PyVal.other _ =>
    r.addWarning ("'" ++ m.canonical_name ++ "' has non-numeric value: " ++ pyValRepr m.value)
  | PyVal.int n =>
    if cfg.max_absolute_value < |(n : ℚ)| then
      r.addWarning ("'" ++ m.canonical_name ++ "' value " ++ pyValStr m.value ++
        " exceeds max_absolute_value (" ++ pyNumStr (PyNum.fin cfg.max_absolute_value) ++
        "). Possible unit error?")
    else r
  | PyVal.float x =>
    match x with
    | PyNum.fin q =>
      if cfg.max_absolute_value < |q| then
        r.addWarning ("'" ++ m.canonical_name ++ "' value " ++ pyValStr m.value ++
          " exceeds max_absolute_value (" ++ pyNumStr (PyNum.fin cfg.max_absolute_value) ++
          "). Possible unit error?")
      else r
    | _ => r.addError (nonFiniteMsg m)

/-- Model of Validator._check_values: fold checkValueOne over the list. -/
def checkValues (cfg : ValidationConfig) (ms : List MappingResult)
    (r : ValidationReport) : ValidationReport :=
  ms.foldl (checkValueOne cfg) r

/-- Model of Validator.validate (validator.py lines 60-66): the three
checks run in order on one shared report; findings accumulate and none
suppress others. -/
def validate (cfg : ValidationConfig) (ms : List MappingResult) : ValidationReport :=
  checkValues cfg ms (checkRequiredFields cfg ms (checkDuplicates cfg ms ⟨[], []⟩))


/-- Aggregate result of a pipeline run (schema.py lines 124-131); the
unmapped entries are the raw (label, value) pairs. -/
structure PipelineOutput where
  mappings : List MappingResult
  unmapped : List (String × PyVal)
  validation_errors : List String
  validation_warnings : List String
deriving DecidableEq, Repr

/-- Derived success flag of PipelineOutput (schema.py lines 133-135):
true exactly when there are no validation errors. -/
def PipelineOutput.success (o : PipelineOutput) : Bool :=
  o.validation_errors.isEmpty

/-- Duplicate-mapping conflict warning of
FinancialMappingPipeline._build_result (pipeline.py lines 275-281). -/
def conflictMsg (canonical prev now : String) : String :=
  "Duplicate mapping to '" ++ canonical ++ "': previously mapped from '" ++ prev ++
    "', now also from '" ++ now ++ "'"

/-- Best-effort model of the %.1f float format used in log/warning
interpolations; its exact text is immaterial to every theorem below. -/
def pyFmt1 (q : ℚ) : String :=
  toString ⌊q * 10⌋

/-- Ambiguity warning appended by _map_single (pipeline.py lines 228-232). -/
def ambiguousMsg (raw_label : String) (cand : FuzzyCandidate) : String :=
  "Ambiguous fuzzy match for '" ++ raw_label ++ "' → '" ++ cand.canonical_name ++
    "' (score=" ++ pyFmt1 cand.score ++ ")"

/-- Model of FinancialMappingPipeline._build_result (pipeline.py lines
262-301): a canonical name already in the per-run seen map gains a
conflict warning (the seen map keeps its first raw label); a fresh one is
recorded.  Returns the result together with the updated seen map. -/
def buildResult (canonical_name raw_label : String) (value : PyVal)
    (confidence : ℚ) (method : String) (warnings : List String)
    (seen : List (String × String)) : MappingResult × List (String × String) :=
  match pyDictGet seen canonical_name with
  | some prev =>
    (⟨canonical_name, raw_label, value, confidence, method,
      warnings ++ [conflictMsg canonical_name prev raw_label]⟩, seen)
  | Option.none =>
    (⟨canonical_name, raw_label, value, confidence, method, warnings⟩,
      pyDictInsert seen canonical_name raw_label)

/-- Model of the semantic-matching stub _semantic_match (pipeline.py
lines 307-325): a placeholder that always returns None. -/
def semanticMatch (_normalised_label : String) : Option (String × ℚ) :=
  Option.none

/-- Model of FinancialMappingPipeline._map_single (pipeline.py lines
196-260): normalise, then synonym lookup (confidence 100, method
"synonym"), then fuzzy (confidence = score, method "fuzzy", ambiguity
warning appended), then the optional semantic hook, else no match.
Parameterised by the synonym dictionary, fuzzy target pool and scorer
held by the pipeline object. -/
def mapSingle (syn ftargets : List (String × String))
    (score : String → String → ℚ) (mcfg : MatchingConfig) (enableSem : Bool)
    (raw_label : String) (raw_value : PyVal) (seen : List (String × String)) :
    Option MappingResult × List (String × String) :=
  let norm_label := normalizeLabel raw_label
  let v := normalizeValue raw_value
  let value : PyVal := match v.1 with
    | some x => PyVal.float x
    | Option.none => PyVal.none
  match synonymLookup syn norm_label with
  | some canonical =>
    let br := buildResult canonical raw_label value 100 ("synonym") v.2 seen
    (some br.1, br.2)
  | Option.none =>
    match fuzzyMatch mcfg ftargets score norm_label with
    | some cand =>
      let ws := if cand.is_ambiguous then v.2 ++ [ambiguousMsg raw_label cand] else v.2
      let br := buildResult cand.canonical_name raw_label value cand.score ("fuzzy") ws seen
      (some br.1, br.2)
    | Option.none =>
      if enableSem then
        match semanticMatch norm_label with
        | some sr =>
          let br := buildResult sr.1 raw_label value (sr.2 * 100) ("semantic") v.2 seen
          (some br.1, br.2)
        | Option.none => (Option.none, seen)
      else (Option.none, seen)

/-- Accumulator step of the _run loop (pipeline.py lines 163-168):
mapped results are appended, misses become unmapped entries, and the
seen map threads through. -/
def runStep (syn ftargets : List (String × String))
    (score : String → String → ℚ) (mcfg : MatchingConfig) (enableSem : Bool)
    (acc : List MappingResult × List (String × PyVal) × List (String × String))
    (p : String × PyVal) :
    List MappingResult × List (String × PyVal) × List (String × String) :=
  match mapSingle syn ftargets score mcfg enableSem p.1 p.2 acc.2.2 with
  | (some r, seen2) => (acc.1 ++ [r], acc.2.1, seen2)
  | (Option.none, seen2) => (acc.1, acc.2.1 ++ [p], seen2)

/-- Mapping list produced by the _run loop over the raw pairs. -/
def pipelineMappings (syn ftargets : List (String × String))
    (score : String → String → ℚ) (mcfg : MatchingConfig) (enableSem : Bool)
    (pairs : List (String × PyVal)) : List MappingResult :=
  (pairs.foldl (runStep syn ftargets score mcfg enableSem) ([], [], [])).1

/-- Unmapped list produced by the _run loop over the raw pairs. -/
def pipelineUnmapped (syn ftargets : List (String × String))
    (score : String → String → ℚ) (mcfg : MatchingConfig) (enableSem : Bool)
    (pairs : List (String × PyVal)) : List (String × PyVal) :=
  (pairs.foldl (runStep syn ftargets score mcfg enableSem) ([], [], [])).2.1

/-- Strict-mode abort message of _run (pipeline.py lines 188-192). -/
def strictModeMsg (errors : List String) : String :=
  "Strict mode: pipeline produced " ++ toString errors.length ++
    " validation error(s):\n" ++ String.intercalate ("\n") errors

/-- Model of FinancialMappingPipeline._run (pipeline.py lines 157-194):
map every pair, validate the mapping list, assemble the output, and in
strict mode raise (here: return Except.error carrying the formatted
error list) when validation produced any error. -/
def runPipeline (syn ftargets : List (String × String))
    (score : String → String → ℚ) (mcfg : MatchingConfig)
    (vcfg : ValidationConfig) (enableSem : Bool)
    (pairs : List (String × PyVal)) : Except String PipelineOutput :=
  let mappings := pipelineMappings syn ftargets score mcfg enableSem pairs
  let unmapped := pipelineUnmapped syn ftargets score mcfg enableSem pairs
  let report := validate vcfg mappings
  let output : PipelineOutput := ⟨mappings, unmapped, report.errors, report.warnings⟩
  if mcfg.strict_mode ∧ output.success = false then
    Except.error (strictModeMsg report.errors)
  else Except.ok output


/-- Model of a spreadsheet cell as read by openpyxl: blank (None), a
number, text, or a datetime (only the date part matters to this code). -/
inductive Cell where
  | blank
  | num (q : ℚ)
  | str (s : String)
  | date (y m d : ℕ)
deriving DecidableEq, Repr

/-- Zero-padded decimal rendering, as strftime %Y/%m/%d produce. -/
def padZero (width n : ℕ) : String :=
  String.mk (List.replicate (width - (toString n).length) '0') ++ toString n

/-- Model of Python int() on a float: truncation toward zero. -/
def pyIntOfRat (q : ℚ) : ℤ :=
  if q < 0 then -⌊-q⌋ else ⌊q⌋

/-- Regex word character \w restricted to ASCII: letters, digits,
underscore. -/
def isWordChar (c : Char) : Bool :=
  (65 ≤ c.toNat && c.toNat ≤ 90) || (97 ≤ c.toNat && c.toNat ≤ 122) ||
  isDigitChar c || c.toNat = 95

/-- Word boundary \b before the match position, given the preceding
character (none at the start of the string; our patterns all begin with a
word character). -/
def boundaryBefore : Option Char → Bool
  | Option.none => true
  | some c => !isWordChar c

/-- Word boundary \b after the match, given the remaining characters
(our patterns all end with a word character). -/
def boundaryAfter : List Char → Bool
  | [] => true
  | c :: _ => !isWordChar c

/-- Match of pattern 1 of _extract_year_from_header,
\b(\d{2})S(\d{2})S(\d{4})\b with S the class of hyphen or slash,, at the current position; on success
the rewritten identifier group3-group2-group1 (excel_parser.py lines
165-167). -/
def matchDMY (prev : Option Char) (l : List Char) : Option String :=
  match l with
  | d1 :: d2 :: s1 :: m1 :: m2 :: s2 :: y1 :: y2 :: y3 :: y4 :: rest =>
    if boundaryBefore prev && isDigitChar d1 && isDigitChar d2 &&
        (s1 = '-' || s1 = '/') && isDigitChar m1 && isDigitChar m2 &&
        (s2 = '-' || s2 = '/') && isDigitChar y1 && isDigitChar y2 &&
        isDigitChar y3 && isDigitChar y4 && boundaryAfter rest then
      some (String.mk [y1, y2, y3, y4, '-', m1, m2, '-', d1, d2])
    else Option.none
  | _ => Option.none

/-- Match of pattern 2, \b(\d{4})S(\d{2})S(\d{2})\b with S as in pattern 1,, at the
current position; on success the matched text with / replaced by -
(excel_parser.py lines 170-172). -/
def matchYMD (prev : Option Char) (l : List Char) : Option String :=
  match l with
  | y1 :: y2 :: y3 :: y4 :: s1 :: m1 :: m2 :: s2 :: d1 :: d2 :: rest =>
    if boundaryBefore prev && isDigitChar y1 && isDigitChar y2 &&
        isDigitChar y3 && isDigitChar y4 && (s1 = '-' || s1 = '/') &&
        isDigitChar m1 && isDigitChar m2 && (s2 = '-' || s2 = '/') &&
        isDigitChar d1 && isDigitChar d2 && boundaryAfter rest then
      some (String.mk [y1, y2, y3, y4, '-', m1, m2, '-', d1, d2])
    else Option.none
  | _ => Option.none

/-- Match of pattern 3, \b(20\d{2})\b, at the current position
(excel_parser.py lines 175-177). -/
def matchBareYear (prev : Option Char) (l : List Char) : Option String :=
  match l with
  | c1 :: c2 :: c3 :: c4 :: rest =>
    if boundaryBefore prev && c1 = '2' && c2 = '0' && isDigitChar c3 &&
        isDigitChar c4 && boundaryAfter rest then
      some (String.mk [c1, c2, c3, c4])
    else Option.none
  | _ => Option.none

/-- Match of pattern 4, FY\s*(\d{4}) case-insensitive, at the current
position; on success the identifier FY followed by the four digits
(excel_parser.py lines 180-182). -/
def matchFY (_prev : Option Char) (l : List Char) : Option String :=
  match l with
  | f :: y :: rest =>
    if (f = 'F' || f = 'f') && (y = 'Y' || y = 'y') then
      match rest.dropWhile pyIsSpace with
      | a :: b :: c :: d :: _ =>
        if isDigitChar a && isDigitChar b && isDigitChar c && isDigitChar d then
          some (String.mk ['F', 'Y', a, b, c, d])
        else Option.none
      | _ => Option.none
    else Option.none
  | _ => Option.none

/-- Leftmost-match driver modelling re.search: try the pattern at every
position, left to right, tracking the preceding character for word
boundaries. -/
def searchFrom (f : Option Char → List Char → Option String)
    (prev : Option Char) : List Char → Option String
  | [] => f prev []
  | c :: rest =>
    match f prev (c :: rest) with
    | some r => some r
    | Option.none => searchFrom f (some c) rest

/-- Model of _extract_year_from_header (excel_parser.py lines 149-184):
datetime cells print as YYYY-MM-DD; int/float cells truncate to an int
accepted in 2000..2100; text cells run the four regex searches in order
(day-month-year date, year-month-day date, bare 4-digit 20xx year, FY
notation); everything else is None. -/
def extractYearFromHeader : Cell → Option String
  | Cell.date y m d => some (padZero 4 y ++ "-" ++ padZero 2 m ++ "-" ++ padZero 2 d)
  | Cell.num q =>
    let yn := pyIntOfRat q
    if 2000 ≤ yn ∧ yn ≤ 2100 then some (toString yn) else Option.none
  | Cell.str s =>
    let t := pyStrip s.data
    match searchFrom matchDMY Option.none t with
    | some r => some r
    | Option.none =>
      match searchFrom matchYMD Option.none t with
      | some r => some r
      | Option.none =>
        match searchFrom matchBareYear Option.none t with
        | some r => some r
        | Option.none => searchFrom matchFY Option.none t
  | Cell.blank => Option.none

/-- Header scan of ExcelParser._extract_year_headers (excel_parser.py
lines 324-336): visit the header row and the rows at offsets -1, +1, -2,
and for each value column not yet assigned try to extract a year
identifier from the cell there. -/
def scanYearHeaders (grid : List (List Cell)) (value_cols : List ℕ)
    (header_row : ℕ) : List (ℕ × String) :=
  [(0 : ℤ), -1, 1, -2].foldl (fun acc off =>
    let ri : ℤ := (header_row : ℤ) + off
    if 0 ≤ ri ∧ ri < (grid.length : ℤ) then
      let row := grid.getD ri.toNat []
      value_cols.foldl (fun acc2 col =>
        if col < row.length ∧ acc2.all (fun p => p.1 ≠ col) then
          match extractYearFromHeader (row.getD col Cell.blank) with
          | some y => acc2 ++ [(col, y)]
          | Option.none => acc2
        else acc2) acc
    else acc) []

/-- Model of ExcelParser._extract_year_headers (excel_parser.py lines
312-345): the scanned assignments, or the synthetic labels Year 1,
Year 2, ... in value-column order when the scan found nothing. -/
def extractYearHeaders (grid : List (List Cell)) (value_cols : List ℕ)
    (header_row : ℕ) : List (ℕ × String) :=
  let s := scanYearHeaders grid value_cols header_row
  if s = [] then value_cols.enum.map (fun p => (p.2, "Year " ++ toString (p.1 + 1)))
  else s

/-- Deduplication key of the multi-year branch of ExcelParser.parse_file
(excel_parser.py line 276): the trimmed, lowercased label. -/
def dedupeKey (label : String) : String :=
  String.mk ((pyStrip label.data).map pyLowerChar)

/-- Loop of the per-year deduplication (excel_parser.py lines 272-280):
a pair whose key was already seen is dropped, otherwise it is kept and
its key recorded.  No warning is produced at this layer. -/
def dedupeYearGo {α : Type} : List (String × α) → List String → List (String × α)
  | [], _ => []
  | p :: rest, seenKeys =>
    if dedupeKey p.1 ∈ seenKeys then dedupeYearGo rest seenKeys
    else p :: dedupeYearGo rest (seenKeys ++ [dedupeKey p.1])

/-- Per-year deduplication applied to one year of extracted pairs. -/
def dedupeYearPairs {α : Type} (pairs : List (String × α)) : List (String × α) :=
  dedupeYearGo pairs []


/-! Lemmas about the normalizer, supporting the idempotence claim. -/

lemma stripTrailing_eq_rdrop (l : List Char) : stripTrailing l = l.rdropWhile pyIsSpace := rfl

lemma keep_of_lower (c : Char) (h : keepLabelChar c = true) : pyLowerChar c = c := by
  unfold pyLowerChar
  split_ifs with hc
  · exfalso
    simp only [keepLabelChar, pyIsSpace, Bool.or_eq_true, Bool.and_eq_true,
      decide_eq_true_eq] at h
    omega
  · rfl

lemma keep_not_mojA : keepLabelChar mojA = false := by decide

lemma replace3_eq_self (a b c r : Char) :
    ∀ l : List Char, a ∉ l → replace3 a b c r l = l
  | [], _ => rfl
  | [x], _ => rfl
  | [x, y], _ => rfl
  | x :: y :: z :: rest, h => by
    have hx : x ≠ a := by simp only [List.mem_cons] at h; tauto
    have ht : a ∉ y :: z :: rest := by simp only [List.mem_cons] at h ⊢; tauto
    rw [replace3, if_neg (by rintro ⟨h1, -⟩; exact hx h1)]
    rw [replace3_eq_self a b c r (y :: z :: rest) ht]

lemma map_lower_eq_self (l : List Char) (h : ∀ c ∈ l, keepLabelChar c = true) :
    l.map pyLowerChar = l := by
  induction l with
  | nil => rfl
  | cons x xs ih =>
    simp only [List.mem_cons, forall_eq_or_imp] at h
    simp [keep_of_lower x h.1, ih h.2]



lemma squeezeWs_cons (b : Char) (rest : List Char) :
    ∃ t, squeezeWs (b :: rest) = (if pyIsSpace b then ' ' else b) :: t := by
  induction rest generalizing b with
  | nil => exact ⟨[], by by_cases hb : pyIsSpace b <;> simp [squeezeWs, hb]⟩
  | cons r rs ih =>
    by_cases hbr : pyIsSpace b = true ∧ pyIsSpace r = true
    · obtain ⟨t, ht⟩ := ih r
      refine ⟨t, ?_⟩
      rw [squeezeWs, if_pos hbr, ht, hbr.1]
      simp [hbr.2]
    · exact ⟨squeezeWs (r :: rs), by rw [squeezeWs, if_neg hbr]⟩

lemma squeezeWs_ws_space (l : List Char) :
    ∀ c ∈ squeezeWs l, pyIsSpace c = true → c = ' ' := by
  induction l with
  | nil => intro c hc; simp [squeezeWs] at hc
  | cons x xs ih =>
    cases xs with
    | nil =>
      intro c hc hws
      by_cases hx : pyIsSpace x = true
      · simp [squeezeWs, hx] at hc; exact hc
      · simp [squeezeWs, hx] at hc; subst hc; exact absurd hws hx
    | cons y rest =>
      intro c hc hws
      by_cases hxy : pyIsSpace x = true ∧ pyIsSpace y = true
      · rw [squeezeWs, if_pos hxy] at hc
        exact ih c hc hws
      · rw [squeezeWs, if_neg hxy] at hc
        rcases List.mem_cons.mp hc with h1 | h1
        · subst h1
          by_cases hx : pyIsSpace x = true
          · simp [hx]
          · rw [if_neg hx] at hws; exact absurd hws hx
        · exact ih c h1 hws

lemma squeezeWs_keep (l : List Char) (h : ∀ c ∈ l, keepLabelChar c = true) :
    ∀ c ∈ squeezeWs l, keepLabelChar c = true := by
  induction l with
  | nil => intro c hc; simp [squeezeWs] at hc
  | cons x xs ih =>
    cases xs with
    | nil =>
      intro c hc
      by_cases hx : pyIsSpace x = true
      · simp [squeezeWs, hx] at hc; subst hc; decide
      · simp [squeezeWs, hx] at hc; subst hc; exact h _ (by simp)
    | cons y rest =>
      have htail : ∀ c ∈ y :: rest, keepLabelChar c = true := fun d hd =>
        h d (List.mem_cons_of_mem x hd)
      intro c hc
      by_cases hxy : pyIsSpace x = true ∧ pyIsSpace y = true
      · rw [squeezeWs, if_pos hxy] at hc
        exact ih htail c hc
      · rw [squeezeWs, if_neg hxy] at hc
        rcases List.mem_cons.mp hc with h1 | h1
        · subst h1
          by_cases hx : pyIsSpace x = true
          · simp [hx]; decide
          · simpa [hx] using h _ (by simp)
        · exact ih htail c h1



/-- Adjacent-whitespace freedom of squeezeWs output. -/
lemma squeezeWs_chain (l : List Char) :
    (squeezeWs l).Chain' (fun a b => ¬(pyIsSpace a = true ∧ pyIsSpace b = true)) := by
  induction l with
  | nil => simp [squeezeWs]
  | cons x xs ih =>
    cases xs with
    | nil =>
      by_cases hx : pyIsSpace x = true <;> simp [squeezeWs, hx]
    | cons y rest =>
      by_cases hxy : pyIsSpace x = true ∧ pyIsSpace y = true
      · rw [squeezeWs, if_pos hxy]; exact ih
      · rw [squeezeWs, if_neg hxy]
        obtain ⟨t, ht⟩ := squeezeWs_cons y rest
        rw [ht]
        rw [ht] at ih
        refine List.Chain'.cons ?_ ih
        intro ⟨ha, hb⟩
        apply hxy
        constructor
        · by_cases hx : pyIsSpace x = true
          · exact hx
          · rw [if_neg hx] at ha; exact absurd ha hx
        · by_cases hy : pyIsSpace y = true
          · exact hy
          · rw [if_neg hy] at hb; exact absurd hb hy

lemma squeezeWs_eq_self (l : List Char)
    (hws : ∀ c ∈ l, pyIsSpace c = true → c = ' ')
    (hch : l.Chain' (fun a b => ¬(pyIsSpace a = true ∧ pyIsSpace b = true))) :
    squeezeWs l = l := by
  induction l with
  | nil => rfl
  | cons x xs ih =>
    cases xs with
    | nil =>
      by_cases hx : pyIsSpace x = true
      · have := hws x (by simp) hx
        subst this
        simp [squeezeWs]
      · simp [squeezeWs, hx]
    | cons y rest =>
      have hxy : ¬(pyIsSpace x = true ∧ pyIsSpace y = true) :=
        (List.chain'_cons.mp hch).1
      rw [squeezeWs, if_neg hxy]
      have htail := ih (fun c hc hw => hws c (List.mem_cons_of_mem x hc) hw)
        (List.chain'_cons.mp hch).2
      rw [htail]
      by_cases hx : pyIsSpace x = true
      · rw [if_pos hx, hws x (by simp) hx]
      · rw [if_neg hx]



/-- Head of the stripped list is not whitespace. -/
lemma stripLeading_head (l : List Char) (c : Char)
    (h : (stripLeading l).head? = some c) : pyIsSpace c = false := by
  unfold stripLeading at h
  have hne : l.dropWhile pyIsSpace ≠ [] := by
    intro he; rw [he] at h; simp at h
  have := List.head_dropWhile_not pyIsSpace l hne
  rw [List.head?_eq_head hne] at h
  cases h
  simpa using this

lemma stripTrailing_getLast (l : List Char) (c : Char)
    (h : (stripTrailing l).getLast? = some c) : pyIsSpace c = false := by
  rw [stripTrailing_eq_rdrop] at h
  have hne : l.rdropWhile pyIsSpace ≠ [] := by
    intro he; rw [he] at h; simp at h
  have := List.rdropWhile_last_not pyIsSpace l hne
  rw [List.getLast?_eq_getLast _ hne] at h
  cases h
  simpa using this

lemma stripLeading_sublist (l : List Char) : (stripLeading l).Sublist l :=
  (List.dropWhile_suffix pyIsSpace).sublist

lemma stripTrailing_sublist (l : List Char) : (stripTrailing l).Sublist l := by
  rw [stripTrailing_eq_rdrop]
  exact (List.rdropWhile_prefix pyIsSpace l).sublist

lemma stripLeading_eq_self (l : List Char)
    (h : ∀ c, l.head? = some c → pyIsSpace c = false) : stripLeading l = l := by
  unfold stripLeading
  cases l with
  | nil => rfl
  | cons x xs =>
    rw [List.dropWhile_cons, if_neg]
    simp [h x rfl]

lemma stripTrailing_eq_self (l : List Char)
    (h : ∀ c, l.getLast? = some c → pyIsSpace c = false) : stripTrailing l = l := by
  rw [stripTrailing_eq_rdrop]
  rw [List.rdropWhile_eq_self_iff]
  intro hl
  have := h (l.getLast hl) (List.getLast?_eq_getLast l hl)
  simp [this]



lemma head?_eq_of_front {l s : List Char} (h : l <+: s) (c : Char)
    (hc : l.head? = some c) : s.head? = some c := by
  obtain ⟨t, rfl⟩ := h
  cases l with
  | nil => simp at hc
  | cons x xs => simpa using hc

/-- Structural invariants of normalize_label output: only kept characters,
all whitespace is a single ASCII space, no two adjacent whitespace
characters, and no leading or trailing whitespace. -/
lemma normalizeLabelChars_inv (l : List Char) :
    (∀ c ∈ normalizeLabelChars l, keepLabelChar c = true) ∧
    (∀ c ∈ normalizeLabelChars l, pyIsSpace c = true → c = ' ') ∧
    (normalizeLabelChars l).Chain' (fun a b => ¬(pyIsSpace a = true ∧ pyIsSpace b = true)) ∧
    (∀ c, (normalizeLabelChars l).head? = some c → pyIsSpace c = false) ∧
    (∀ c, (normalizeLabelChars l).getLast? = some c → pyIsSpace c = false) := by
  unfold normalizeLabelChars
  set m := List.filter keepLabelChar
    (replace3 mojA mojEuro mojRQ '-'
      (replace3 mojA mojEuro mojLQ '-'
        (List.map pyLowerChar (pyStrip l)))) with hm
  have hmk : ∀ c ∈ m, keepLabelChar c = true := fun c hc => List.of_mem_filter hc
  have hsq_keep := squeezeWs_keep m hmk
  have hsq_ws := squeezeWs_ws_space m
  have hsq_ch := squeezeWs_chain m
  have hsub : (stripTrailing (stripLeading (squeezeWs m))).Sublist (squeezeWs m) :=
    (stripTrailing_sublist _).trans (stripLeading_sublist _)
  refine ⟨?_, ?_, ?_, ?_, ?_⟩
  · exact fun c hc => hsq_keep c (hsub.mem hc)
  · exact fun c hc => hsq_ws c (hsub.mem hc)
  · have h1 : (stripLeading (squeezeWs m)).Chain'
        (fun a b => ¬(pyIsSpace a = true ∧ pyIsSpace b = true)) :=
      hsq_ch.suffix (List.dropWhile_suffix pyIsSpace)
    exact h1.prefix (by rw [stripTrailing_eq_rdrop]; exact List.rdropWhile_prefix _ _)
  · intro c hc
    have hpre : (stripTrailing (stripLeading (squeezeWs m))) <+: stripLeading (squeezeWs m) := by
      rw [stripTrailing_eq_rdrop]; exact List.rdropWhile_prefix _ _
    exact stripLeading_head _ c (head?_eq_of_front hpre c hc)
  · exact fun c hc => stripTrailing_getLast _ c hc

/-- Any list already satisfying the output invariants is a fixed point of
normalize_label. -/
lemma normalizeLabelChars_eq_self (l : List Char)
    (hk : ∀ c ∈ l, keepLabelChar c = true)
    (hws : ∀ c ∈ l, pyIsSpace c = true → c = ' ')
    (hch : l.Chain' (fun a b => ¬(pyIsSpace a = true ∧ pyIsSpace b = true)))
    (hh : ∀ c, l.head? = some c → pyIsSpace c = false)
    (hl : ∀ c, l.getLast? = some c → pyIsSpace c = false) :
    normalizeLabelChars l = l := by
  unfold normalizeLabelChars
  have hstrip : pyStrip l = l := by
    unfold pyStrip
    rw [stripLeading_eq_self l hh, stripTrailing_eq_self l hl]
  rw [hstrip, map_lower_eq_self l hk]
  have hnomoj : mojA ∉ l := by
    intro hmem
    have := hk mojA hmem
    rw [keep_not_mojA] at this
    exact Bool.false_ne_true this
  rw [replace3_eq_self _ _ _ _ l hnomoj, replace3_eq_self _ _ _ _ l hnomoj]
  rw [List.filter_eq_self.mpr hk, squeezeWs_eq_self l hws hch]
  rw [stripLeading_eq_self l hh, stripTrailing_eq_self l hl]

lemma normalizeLabelChars_idem (l : List Char) :
    normalizeLabelChars (normalizeLabelChars l) = normalizeLabelChars l := by
  obtain ⟨h1, h2, h3, h4, h5⟩ := normalizeLabelChars_inv l
  exact normalizeLabelChars_eq_self _ h1 h2 h3 h4 h5



/-- C7: normalize_label is idempotent: for every input string s,
normalize_label (normalize_label s) equals normalize_label s. -/
theorem normalize_label_idempotent (s : String) :
    normalizeLabel (normalizeLabel s) = normalizeLabel s :=
  congrArg String.mk (normalizeLabelChars_idem s.data)

/-- C10: FuzzyMatcher.match applied to the empty string returns None for
every matching configuration, every target pool (hence any set of extra
targets) and every scorer, before the target pool is consulted; a raw
label with empty normalised form therefore can never be fuzzy-matched,
however low the threshold. -/
theorem fuzzy_match_empty_label (cfg : MatchingConfig)
    (targets : List (String × String)) (score : String → String → ℚ) :
    fuzzyMatch cfg targets score "" = Option.none := by
  simp [fuzzyMatch]

/-- C4: evaluation of normalize_value as implemented.  Three of the four
specified cases hold: "(5,000)" parses to -5000.0, None yields exactly
one warning, and "12.5%" yields 12.5 with the percent warning.  The
fourth is the code bug: because _CURRENCY_RE is encoding-corrupted (its
character class is mojibake and does not contain U+20B9), "₹12,000" fails
to parse and returns None with a cannot-parse warning instead of the
specified 12000.0 (the repository's own test_currency_prefix asserts
12000.0). -/
theorem normalize_value_eval :
    normalizeValue (PyVal.str ("(5,000)")) = (some (PyNum.fin (-5000)), []) ∧
    normalizeValue PyVal.none = (Option.none, ["Value is None"]) ∧
    normalizeValue (PyVal.str ("12.5%")) =
      (some (PyNum.fin (25 / 2)), ["Percent symbol stripped; raw value treated as number"]) ∧
    normalizeValue (PyVal.str ("₹12,000")) =
      (Option.none, ["Cannot parse numeric value from: '₹12,000'"]) := by
  refine ⟨rfl, rfl, ?_, rfl⟩
  have h : normalizeValue (PyVal.str ("12.5%")) =
      (some (PyNum.fin ((12 : ℚ) + (5 : ℚ) / (10 : ℚ) ^ (1 : ℕ))),
        ["Percent symbol stripped; raw value treated as number"]) := rfl
  rw [h]
  norm_num

/-- C3 counterexample: a header cell "FY 2025" yields "2025", not the
"FY2025" the claim states — the bare-year pattern runs before the FY
pattern and the spaced year matches it. -/
theorem year_header_fy_space_cex :
    extractYearFromHeader (Cell.str ("FY 2025")) = some ("2025") ∧
    ("2025" : String) ≠ "FY2025" :=
  ⟨rfl, by decide⟩

/-- C3 amended: a "FY 2025" header cell yields "2025" (the bare 4-digit
year pattern fires first on the spaced form; the unspaced "FY2025" yields
"FY2025"); a date cell 2025-03-31 yields "2025-03-31"; and when the
header scan yields no identifier at all the value columns get synthetic
labels "Year 1", "Year 2", ... in left-to-right column order. -/
theorem year_header_extraction (grid : List (List Cell)) (value_cols : List ℕ)
    (header_row : ℕ) (hscan : scanYearHeaders grid value_cols header_row = []) :
    extractYearFromHeader (Cell.str ("FY 2025")) = some ("2025") ∧
    extractYearFromHeader (Cell.str ("FY2025")) = some ("FY2025") ∧
    extractYearFromHeader (Cell.date 2025 3 31) = some ("2025-03-31") ∧
    extractYearHeaders grid value_cols header_row =
      value_cols.enum.map (fun p => (p.2, "Year " ++ toString (p.1 + 1))) := by
  refine ⟨rfl, rfl, rfl, ?_⟩
  unfold extractYearHeaders
  rw [hscan]
  rfl

/-- C3 witness: the amended theorem applied to a concrete one-row grid
whose header cells contain no parsable year. -/
theorem year_header_extraction_witness :
    extractYearFromHeader (Cell.str ("FY 2025")) = some ("2025") ∧
    extractYearFromHeader (Cell.str ("FY2025")) = some ("FY2025") ∧
    extractYearFromHeader (Cell.date 2025 3 31) = some ("2025-03-31") ∧
    extractYearHeaders [[Cell.str ("Particulars"), Cell.str ("Amount"), Cell.str ("Total")]] [1, 2] 0 =
      ([1, 2] : List ℕ).enum.map (fun p => (p.2, "Year " ++ toString (p.1 + 1))) :=
  year_header_extraction [[Cell.str ("Particulars"), Cell.str ("Amount"), Cell.str ("Total")]]
    [1, 2] 0 rfl

lemma dedupeYearGo_sublist {α : Type} :
    ∀ (pairs : List (String × α)) (seen : List String),
      (dedupeYearGo pairs seen).Sublist pairs
  | [], _ => List.Sublist.refl _
  | p :: rest, seen => by
    rw [dedupeYearGo]
    split_ifs with h
    · exact (dedupeYearGo_sublist rest seen).cons p
    · exact (dedupeYearGo_sublist rest (seen ++ [dedupeKey p.1])).cons₂ p

lemma dedupeYearGo_keys {α : Type} :
    ∀ (pairs : List (String × α)) (seen : List String),
      ((dedupeYearGo pairs seen).map (fun p => dedupeKey p.1)).Nodup ∧
      ∀ x ∈ (dedupeYearGo pairs seen).map (fun p => dedupeKey p.1), x ∉ seen
  | [], _ => by simp [dedupeYearGo]
  | p :: rest, seen => by
    rw [dedupeYearGo]
    split_ifs with h
    · exact dedupeYearGo_keys rest seen
    · obtain ⟨ih1, ih2⟩ := dedupeYearGo_keys rest (seen ++ [dedupeKey p.1])
      constructor
      · rw [List.map_cons, List.nodup_cons]
        refine ⟨fun hmem => ?_, ih1⟩
        exact ih2 _ hmem (by simp)
      · intro x hx hxseen
        rw [List.map_cons, List.mem_cons] at hx
        rcases hx with rfl | hx
        · exact h hxseen
        · exact ih2 x hx (by simp [hxseen])

lemma dedupeYearGo_find {α : Type} :
    ∀ (pairs : List (String × α)) (seen : List String) (k : String), k ∉ seen →
      (dedupeYearGo pairs seen).find? (fun p => dedupeKey p.1 == k) =
        pairs.find? (fun p => dedupeKey p.1 == k)
  | [], _, _, _ => rfl
  | p :: rest, seen, k, hk => by
    rw [dedupeYearGo]
    split_ifs with h
    · have hne : (dedupeKey p.1 == k) = false := by
        by_contra hc
        rw [Bool.not_eq_false, beq_iff_eq] at hc
        exact hk (hc ▸ h)
      rw [List.find?_cons, hne]
      exact dedupeYearGo_find rest seen k hk
    · by_cases he : dedupeKey p.1 = k
      · rw [List.find?_cons, List.find?_cons]
        simp [he]
      · have hne : (dedupeKey p.1 == k) = false := by simp [he]
        rw [List.find?_cons, List.find?_cons, hne]
        refine dedupeYearGo_find rest (seen ++ [dedupeKey p.1]) k ?_
        simp only [List.mem_append, List.mem_singleton]
        rintro (hc | hc)
        · exact hk hc
        · exact he hc.symm

/-- C9: the per-year deduplication of the multi-year Excel extraction
keeps, within each year, exactly the first occurrence of every trimmed,
lowercased label: the output is an order-preserving sublist of the input,
contains each normalised label at most once, and for every key the
retained pair is the first pair of the input with that key.  The
function produces no warning (it returns only the pair list). -/
theorem per_year_dedup {α : Type} (pairs : List (String × α)) :
    (dedupeYearPairs pairs).Sublist pairs ∧
    ((dedupeYearPairs pairs).map (fun p => dedupeKey p.1)).Nodup ∧
    ∀ k, (dedupeYearPairs pairs).find? (fun p => dedupeKey p.1 == k) =
      pairs.find? (fun p => dedupeKey p.1 == k) :=
  ⟨dedupeYearGo_sublist pairs [], (dedupeYearGo_keys pairs []).1,
    fun k => dedupeYearGo_find pairs [] k (by simp)⟩

lemma insertionSort_head_ge (l t : List (String × ℚ)) (x p : String × ℚ)
    (hs : List.insertionSort scoreGE l = x :: t) (hp : p ∈ l) : p.2 ≤ x.2 := by
  have hsorted := List.sorted_insertionSort scoreGE l
  rw [hs] at hsorted
  have hmem : p ∈ x :: t := by
    rw [← hs]
    exact (List.perm_insertionSort scoreGE l).mem_iff.mpr hp
  rcases List.mem_cons.mp hmem with rfl | hmem
  · exact le_refl _
  · exact List.rel_of_sorted_cons hsorted p hmem

lemma insertionSort_head_mem (l t : List (String × ℚ)) (x : String × ℚ)
    (hs : List.insertionSort scoreGE l = x :: t) : x ∈ l := by
  have hx : x ∈ List.insertionSort scoreGE l := by rw [hs]; simp
  exact (List.perm_insertionSort scoreGE l).mem_iff.mp hx

lemma take_eq_cons {β : Type} (l r : List β) (x : β) (n : ℕ)
    (h : l.take (n + 1) = x :: r) : ∃ l2, l = x :: l2 := by
  cases l with
  | nil => simp at h
  | cons a as =>
    rw [List.take_succ_cons] at h
    exact ⟨as, by rw [(List.cons.injEq _ _ _ _).mp h |>.1]⟩

/-- C6: the fuzzy matcher is threshold-gated: any returned candidate
scores at least the configured fuzzy_threshold, and when every pool
target scores below the threshold (so the best score over the pool does
too) the match returns None.  Quantified over every configuration,
target pool, scorer and label. -/
theorem fuzzy_match_threshold (cfg : MatchingConfig) (targets : List (String × String))
    (score : String → String → ℚ) (label : String) :
    (∀ c, fuzzyMatch cfg targets score label = some c → cfg.fuzzy_threshold ≤ c.score) ∧
    ((∀ k ∈ targets.map (fun p => p.1), score label k < cfg.fuzzy_threshold) →
      fuzzyMatch cfg targets score label = Option.none) := by
  constructor
  · intro c hc
    unfold fuzzyMatch at hc
    by_cases hlab : label = ""
    · rw [if_pos hlab] at hc
      simp at hc
    · rw [if_neg hlab] at hc
      cases hE : processExtract (targets.map (fun p => p.1)) score label 5 with
      | nil => rw [hE] at hc; simp at hc
      | cons hd rest =>
        obtain ⟨bk, bs⟩ := hd
        rw [hE] at hc
        simp only [] at hc
        by_cases hth : bs < cfg.fuzzy_threshold
        · rw [if_pos hth] at hc
          simp at hc
        · rw [if_neg hth] at hc
          injection hc with h2
          rw [← h2]
          exact le_of_not_lt hth
  · intro hall
    unfold fuzzyMatch
    by_cases hlab : label = ""
    · rw [if_pos hlab]
    · rw [if_neg hlab]
      cases hE : processExtract (targets.map (fun p => p.1)) score label 5 with
      | nil => rfl
      | cons hd rest =>
        obtain ⟨bk, bs⟩ := hd
        have hbs : bs < cfg.fuzzy_threshold := by
          unfold processExtract at hE
          obtain ⟨l2, hl2⟩ := take_eq_cons _ _ _ _ hE
          have hmem := insertionSort_head_mem _ _ _ hl2
          rw [List.mem_map] at hmem
          obtain ⟨k, hk, hkeq⟩ := hmem
          have h2 := congrArg Prod.snd hkeq
          simp only [] at h2
          rw [← h2]
          exact hall k hk
        simp only []
        rw [if_pos hbs]

lemma checkValueOne_errors_extend (cfg : ValidationConfig) (r : ValidationReport)
    (m : MappingResult) :
    ∃ t, (checkValueOne cfg r m).errors = r.errors ++ t := by
  unfold checkValueOne
  cases hv : m.value with
  | none => exact ⟨[], by simp [ValidationReport.addWarning]⟩
  | str s => exact ⟨[], by simp [ValidationReport.addWarning]⟩
  | other t => exact ⟨[], by simp [ValidationReport.addWarning]⟩
  | int n =>
    simp only []
    split_ifs
    · exact ⟨[], by simp [ValidationReport.addWarning]⟩
    · exact ⟨[], by simp⟩
  | float x =>
    cases x with
    | fin q =>
      simp only []
      split_ifs
      · exact ⟨[], by simp [ValidationReport.addWarning]⟩
      · exact ⟨[], by simp⟩
    | nan => exact ⟨[nonFiniteMsg m], by simp [ValidationReport.addError]⟩
    | inf => exact ⟨[nonFiniteMsg m], by simp [ValidationReport.addError]⟩
    | ninf => exact ⟨[nonFiniteMsg m], by simp [ValidationReport.addError]⟩

lemma checkValues_errors_mono (cfg : ValidationConfig) (ms : List MappingResult) :
    ∀ (r : ValidationReport) (x : String), x ∈ r.errors →
      x ∈ (checkValues cfg ms r).errors := by
  induction ms with
  | nil => intro r x hx; exact hx
  | cons m rest ih =>
    intro r x hx
    unfold checkValues at ih ⊢
    rw [List.foldl_cons]
    apply ih
    obtain ⟨t, ht⟩ := checkValueOne_errors_extend cfg r m
    rw [ht]
    exact List.mem_append_left t hx

lemma checkValues_nonfinite (cfg : ValidationConfig) (ms : List MappingResult)
    (m : MappingResult)
    (hx : m.value = PyVal.float PyNum.nan ∨ m.value = PyVal.float PyNum.inf ∨
      m.value = PyVal.float PyNum.ninf) :
    ∀ (r : ValidationReport), m ∈ ms → nonFiniteMsg m ∈ (checkValues cfg ms r).errors := by
  induction ms with
  | nil => intro r hm; simp at hm
  | cons m0 rest ih =>
    intro r hm
    unfold checkValues at ih ⊢
    rw [List.foldl_cons]
    rcases List.mem_cons.mp hm with rfl | hm
    · apply checkValues_errors_mono
      have herr : (checkValueOne cfg r m).errors = r.errors ++ [nonFiniteMsg m] := by
        unfold checkValueOne
        rcases hx with hx | hx | hx <;>
          rw [hx] <;> simp [ValidationReport.addError]
      rw [herr]
      exact List.mem_append_right _ (by simp)
    · exact ih (checkValueOne cfg r m0) hm

/-- C5: for every validation configuration (any duplicate policy, any
required-field list, any maximum) and every mapping list, each mapping
whose value is NaN or infinite contributes its non-finite error message
to ValidationReport.errors; the finding survives the other checks, which
only ever append. -/
theorem validator_nonfinite_error (cfg : ValidationConfig) (ms : List MappingResult)
    (m : MappingResult) (hm : m ∈ ms)
    (hx : m.value = PyVal.float PyNum.nan ∨ m.value = PyVal.float PyNum.inf ∨
      m.value = PyVal.float PyNum.ninf) :
    nonFiniteMsg m ∈ (validate cfg ms).errors := by
  unfold validate
  exact checkValues_nonfinite cfg ms m hx _ hm

/-- C5 witness: a NaN-valued mapping is reported as an error even with
error_on_duplicate off, a required list naming an absent field, and
another duplicate mapping present. -/
theorem validator_nonfinite_error_witness :
    nonFiniteMsg ⟨"Net Profit", "PAT", PyVal.float PyNum.nan, 100, "synonym", []⟩ ∈
      (validate ⟨["Revenue"], 10, false⟩
        [⟨"Net Profit", "PAT", PyVal.float PyNum.nan, 100, "synonym", []⟩,
         ⟨"Net Profit", "profit", PyVal.float (PyNum.fin 5), 90, "fuzzy", []⟩]).errors :=
  validator_nonfinite_error ⟨["Revenue"], 10, false⟩
    [⟨"Net Profit", "PAT", PyVal.float PyNum.nan, 100, "synonym", []⟩,
     ⟨"Net Profit", "profit", PyVal.float (PyNum.fin 5), 90, "fuzzy", []⟩]
    ⟨"Net Profit", "PAT", PyVal.float PyNum.nan, 100, "synonym", []⟩
    (by simp) (Or.inl rfl)

/-- C2: with strict mode on, any validation error aborts the run with the
formatted full error list and no PipelineOutput; with strict mode off the
run always returns a PipelineOutput carrying the validation report, and
any returned output has success true exactly when its error list is
empty. -/
theorem pipeline_strict_mode (syn ftargets : List (String × String))
    (score : String → String → ℚ) (mcfg : MatchingConfig) (vcfg : ValidationConfig)
    (enableSem : Bool) (pairs : List (String × PyVal)) :
    (mcfg.strict_mode = true →
      (validate vcfg (pipelineMappings syn ftargets score mcfg enableSem pairs)).errors ≠ [] →
      runPipeline syn ftargets score mcfg vcfg enableSem pairs =
        Except.error (strictModeMsg
          (validate vcfg (pipelineMappings syn ftargets score mcfg enableSem pairs)).errors)) ∧
    (mcfg.strict_mode = false →
      runPipeline syn ftargets score mcfg vcfg enableSem pairs =
        Except.ok ⟨pipelineMappings syn ftargets score mcfg enableSem pairs,
          pipelineUnmapped syn ftargets score mcfg enableSem pairs,
          (validate vcfg (pipelineMappings syn ftargets score mcfg enableSem pairs)).errors,
          (validate vcfg (pipelineMappings syn ftargets score mcfg enableSem pairs)).warnings⟩) ∧
    (∀ o, runPipeline syn ftargets score mcfg vcfg enableSem pairs = Except.ok o →
      (o.success = true ↔ o.validation_errors = [])) := by
  refine ⟨?_, ?_, ?_⟩
  · intro hstrict herr
    unfold runPipeline
    rw [if_pos]
    constructor
    · exact hstrict
    · simp [PipelineOutput.success, List.isEmpty_iff, herr]
  · intro hstrict
    unfold runPipeline
    rw [if_neg]
    rintro ⟨h1, -⟩
    rw [hstrict] at h1
    exact Bool.false_ne_true h1
  · intro o ho
    unfold runPipeline at ho
    simp only [] at ho
    split_ifs at ho with hcond
    injection ho with h2
    rw [← h2]
    simp [PipelineOutput.success, List.isEmpty_iff]

lemma pyDictGet_map_overwrite (k v : String) :
    ∀ d : List (String × String), d.any (fun p => p.1 = k) = true →
      pyDictGet (d.map (fun p => if p.1 = k then (p.1, v) else p)) k = some v
  | [], h => by simp at h
  | p :: rest, h => by
    by_cases hp : p.1 = k
    · unfold pyDictGet
      rw [List.map_cons, List.find?_cons]
      simp [hp]
    · have hr : rest.any (fun p => p.1 = k) = true := by
        rcases List.any_eq_true.mp h with ⟨q, hq, hqq⟩
        rcases List.mem_cons.mp hq with rfl | hq
        · exact absurd (of_decide_eq_true hqq) hp
        · exact List.any_eq_true.mpr ⟨q, hq, hqq⟩
      have ih := pyDictGet_map_overwrite k v rest hr
      unfold pyDictGet at ih ⊢
      rw [List.map_cons, List.find?_cons]
      have hfalse : (decide ((if p.1 = k then (p.1, v) else p).1 = k)) = false := by
        simp [hp]
      rw [hfalse]
      exact ih

lemma pyDictGet_insert (d : List (String × String)) (k v : String) :
    pyDictGet (pyDictInsert d k v) k = some v := by
  unfold pyDictInsert
  split_ifs with h
  · exact pyDictGet_map_overwrite k v d h
  · unfold pyDictGet
    rw [List.find?_append]
    have hany : d.any (fun p => p.1 = k) = false := by
      rw [Bool.not_eq_true] at h
      exact h
    have hnone : d.find? (fun p => decide (p.1 = k)) = none := by
      rw [List.find?_eq_none]
      intro x hx
      have hx2 := List.any_eq_false.mp hany x hx
      simpa using hx2
    rw [hnone]
    simp

lemma canonicalLookup_of_mem (c : String) (hc : c ∈ CANONICAL_FIELDS) :
    canonicalLookup c = some c := by
  fin_cases hc <;> rfl

/-- C8 counterexample: the canonical-name validation of add_synonym is
case-insensitive, so a string that is NOT a member of CanonicalField
("net profit", which differs in case from the member "Net Profit") is
accepted rather than raising, refuting the claim's "exactly when". -/
theorem add_synonym_lowercase_cex :
    ("net profit" ∉ CANONICAL_FIELDS) ∧
    addSynonym [] ("foo") ("net profit") = Except.ok [("foo", "Net Profit")] :=
  ⟨by decide, rfl⟩

/-- C8 amended: add_synonym raises exactly when the case/whitespace-
insensitive canonical_lookup fails on the target; when it succeeds the
normalised variant is inserted bound to the properly-cased canonical
value, and inserting over an existing variant overwrites the old binding
(looked up afterwards, the variant yields the new target). -/
theorem add_synonym_spec (d : List (String × String)) (variant canonical : String) :
    ((∃ e, addSynonym d variant canonical = Except.error e) ↔
      canonicalLookup canonical = Option.none) ∧
    (∀ d2, addSynonym d variant canonical = Except.ok d2 →
      ∃ t, canonicalLookup canonical = some t ∧
        d2 = pyDictInsert d (normalizeLabel variant) t ∧
        pyDictGet d2 (normalizeLabel variant) = some t) := by
  constructor
  · constructor
    · rintro ⟨e, he⟩
      unfold addSynonym at he
      split_ifs at he with hmem
      cases hcl : canonicalLookup canonical with
      | none => rfl
      | some cf =>
        rw [hcl] at he
        simp only [] at he
        exact Except.noConfusion he
    · intro hcl
      unfold addSynonym
      split_ifs with hmem
      · rw [canonicalLookup_of_mem canonical hmem] at hcl
        exact Option.noConfusion hcl
      · rw [hcl]
        exact ⟨_, rfl⟩
  · intro d2 hok
    unfold addSynonym at hok
    split_ifs at hok with hmem
    · injection hok with h2
      exact ⟨canonical, canonicalLookup_of_mem canonical hmem, h2.symm,
        h2 ▸ pyDictGet_insert d (normalizeLabel variant) canonical⟩
    · cases hcl : canonicalLookup canonical with
      | none => rw [hcl] at hok; exact Except.noConfusion hok
      | some cf =>
        rw [hcl] at hok
        simp only [] at hok
        injection hok with h2
        exact ⟨cf, rfl, h2.symm, h2 ▸ pyDictGet_insert d (normalizeLabel variant) cf⟩

lemma mapSingle_synonym_hit (syn ftargets : List (String × String))
    (score : String → String → ℚ) (mcfg : MatchingConfig) (enableSem : Bool)
    (raw_label : String) (raw_value : PyVal) (seen : List (String × String))
    (c : String) (h : synonymLookup syn (normalizeLabel raw_label) = some c) :
    ∃ r seen2, mapSingle syn ftargets score mcfg enableSem raw_label raw_value seen =
        (some r, seen2) ∧
      r.canonical_name = c ∧ r.confidence = 100 ∧ r.match_method = "synonym" ∧
      r.raw_label = raw_label := by
  unfold mapSingle
  simp only []
  rw [h]
  simp only []
  unfold buildResult
  cases hseen : pyDictGet seen c with
  | none => exact ⟨_, _, rfl, rfl, rfl, rfl, rfl⟩
  | some prev => exact ⟨_, _, rfl, rfl, rfl, rfl, rfl⟩

set_option maxRecDepth 100000 in
/-- End-to-end run of the pipeline with the built-in synonym dictionary
on the input of the specification's test, computed by evaluation.  The
match method recorded is "synonym". -/
lemma runPipeline_pat_concrete :
    runPipeline builtinSynonymDict (mkFuzzyTargets CANONICAL_FIELDS []) (fun _ _ => 0)
      defaultMatchingConfig defaultValidationConfig false
      [("Profit After Tax", PyVal.int 500000)] =
      Except.ok ⟨[⟨"Net Profit", "Profit After Tax", PyVal.float (PyNum.fin 500000), 100,
        "synonym", []⟩], [], [], []⟩ := by
  rfl

/-- C1 counterexample: the end-to-end input with raw label "Profit After
Tax" and value 500000 maps to canonical "Net Profit" with value 500000.0,
confidence 100 and zero warnings, but the recorded match method is
"synonym", not the "exact" the claim states (pipeline.py line 219 passes
method="synonym"; the repository test_pipeline.py line 63 asserts
"synonym" too). -/
theorem synonym_method_cex :
    runPipeline builtinSynonymDict (mkFuzzyTargets CANONICAL_FIELDS []) (fun _ _ => 0)
      defaultMatchingConfig defaultValidationConfig false
      [("Profit After Tax", PyVal.int 500000)] =
      Except.ok ⟨[⟨"Net Profit", "Profit After Tax", PyVal.float (PyNum.fin 500000), 100,
        "synonym", []⟩], [], [], []⟩ ∧
    ("synonym" : String) ≠ "exact" :=
  ⟨runPipeline_pat_concrete, by decide⟩

/-- C1 amended: every raw pair whose normalised label is a key of the
synonym dictionary produces a MappingResult with confidence 100 and match
method "synonym" (not "exact"), carrying the looked-up canonical name;
in particular the end-to-end input with "Profit After Tax" and 500000
yields exactly one mapping with canonical "Net Profit", value 500000.0,
confidence 100, method "synonym" and zero warnings. -/
theorem synonym_hit_behavior (syn ftargets : List (String × String))
    (score : String → String → ℚ) (mcfg : MatchingConfig) (enableSem : Bool)
    (raw_label : String) (raw_value : PyVal) (seen : List (String × String))
    (c : String) (h : synonymLookup syn (normalizeLabel raw_label) = some c) :
    (∃ r seen2, mapSingle syn ftargets score mcfg enableSem raw_label raw_value seen =
        (some r, seen2) ∧
      r.canonical_name = c ∧ r.confidence = 100 ∧ r.match_method = "synonym" ∧
      r.raw_label = raw_label) ∧
    runPipeline builtinSynonymDict (mkFuzzyTargets CANONICAL_FIELDS []) (fun _ _ => 0)
      defaultMatchingConfig defaultValidationConfig false
      [("Profit After Tax", PyVal.int 500000)] =
      Except.ok ⟨[⟨"Net Profit", "Profit After Tax", PyVal.float (PyNum.fin 500000), 100,
        "synonym", []⟩], [], [], []⟩ :=
  ⟨mapSingle_synonym_hit syn ftargets score mcfg enableSem raw_label raw_value seen c h,
    runPipeline_pat_concrete⟩

/-- C1 witness: the amended theorem applied to a concrete one-entry
dictionary binding the normalised label "profit after tax". -/
theorem synonym_hit_behavior_witness :
    (∃ r seen2, mapSingle [("profit after tax", "Net Profit")] [] (fun _ _ => 0)
        defaultMatchingConfig false ("Profit After Tax") (PyVal.int 500000) [] =
        (some r, seen2) ∧
      r.canonical_name = "Net Profit" ∧ r.confidence = 100 ∧ r.match_method = "synonym" ∧
      r.raw_label = "Profit After Tax") ∧
    runPipeline builtinSynonymDict (mkFuzzyTargets CANONICAL_FIELDS []) (fun _ _ => 0)
      defaultMatchingConfig defaultValidationConfig false
      [("Profit After Tax", PyVal.int 500000)] =
      Except.ok ⟨[⟨"Net Profit", "Profit After Tax", PyVal.float (PyNum.fin 500000), 100,
        "synonym", []⟩], [], [], []⟩ :=
  synonym_hit_behavior [("profit after tax", "Net Profit")] [] (fun _ _ => 0)
    defaultMatchingConfig false ("Profit After Tax") (PyVal.int 500000) []
    ("Net Profit") (by rfl)

end Financify
